import Mathlib

/-!
Verification of the poem2poem peer-to-peer poem-sharing node (src/main.rs)
against its natural-language specification.

The program is a thin CLI over the iroh document/blob/gossip stack.  The
parts of the program that live in src/main.rs (the `poem_loop` subscription
loop with its fetch retry, the `handle_create` / `handle_join` flows and the
microsecond-timestamp keys) are embedded directly from the source.  The
parts of the specified core that the program delegates to external library
crates (the ticket codec, the document-log merge and the `set` timestamp
rule) are modelled from the spec and are marked as such in their doc
comments.
-/

/-! ## Fetch retry loop (src/main.rs lines 162-172)

`poem_loop` performs one initial `blobs.read_to_bytes` call and then a
`for _ in 0..3` loop: each iteration breaks if the current result is Ok,
otherwise sleeps one second and reads again.  We embed the loop with an
oracle `read : Nat → Option α` giving the outcome of the i-th read call
(`none` = the read failed), and record how many reads and how many
one-second sleeps were performed. -/

/-- Trace of one execution of the fetch-retry loop: the final result, the
number of `read_to_bytes` calls made, and the number of one-second backoff
sleeps performed (each sleep is exactly one second, so `sleeps` is also the
total backoff time in seconds). -/
structure RetryTrace (α : Type) where
  result : Option α
  reads : Nat
  sleeps : Nat
  deriving Repr, DecidableEq

/-- The `for _ in 0..3` retry loop of `poem_loop`: `cur` is the current
`message_content`, `reads` the number of reads performed so far (the next
read has index `reads`), `fuel` the remaining loop iterations, `sleeps` the
sleeps performed so far.  Each iteration first tests `cur` and breaks when
it is Ok; otherwise it sleeps one second and reads again. -/
def retryAux (read : Nat → Option α) : Option α → Nat → Nat → Nat → RetryTrace α
  | cur, reads, 0, sleeps => ⟨cur, reads, sleeps⟩
  | cur, reads, fuel + 1, sleeps =>
    match cur with
    | some v => ⟨some v, reads, sleeps⟩
    | none => retryAux read (read reads) (reads + 1) fuel (sleeps + 1)

/-- The full fetch sequence of `poem_loop` for one remote entry: one initial
read (index 0) followed by the retry loop with fuel 3. -/
def retryFetch (read : Nat → Option α) : RetryTrace α :=
  retryAux read (read 0) 1 3 0

/-! ## Hexadecimal rendering and short identifiers -/

/-- Lowercase hexadecimal digit character for a value below 16. -/
def hexDigitChar (n : Nat) : Char :=
  if n < 10 then Char.ofNat (48 + n) else Char.ofNat (87 + n)

/-- Lowercase hex rendering of a byte sequence, two digit characters per
byte, high digit first. -/
def bytesToHex : List Nat → List Char
  | [] => []
  | b :: bs => hexDigitChar (b / 16) :: hexDigitChar (b % 16) :: bytesToHex bs

/-- Modelled from the spec: the short display form (`fmt_short`) of a
fixed-size identifier (a node key or an author key), implemented in the
external iroh library as the lowercase hex of the first five bytes of the
key.  The spec only calls it the "short form" of the identifier. -/
def fmtShort (id : List Nat) : List Char :=
  bytesToHex (id.take 5)

/-! ## UTF-8 decoding (src/main.rs line 179)

`poem_loop` converts fetched payload bytes with
`String::from_utf8(content).unwrap()`.  `utf8Decode` embeds standard UTF-8
decoding exactly as Rust validates it: continuation bytes `0x80..0xBF`,
no overlong encodings (two-byte lead at least `0xC2`, restricted second
byte after `0xE0`/`0xF0`), no surrogates (restricted second byte after
`0xED`) and nothing above `U+10FFFF` (restricted second byte after
`0xF4`).  `none` corresponds to `from_utf8` returning Err, on which the
program's `unwrap` panics. -/

/-- A UTF-8 continuation byte: `0x80..0xBF`. -/
def contByte (b : Nat) : Bool :=
  0x80 ≤ b && b ≤ 0xBF

/-- Standard UTF-8 decoding of a byte sequence to characters; `none` when
the bytes are not valid UTF-8 (exactly Rust's `String::from_utf8` Err). -/
def utf8Decode : List Nat → Option (List Char)
  | [] => some []
  | b :: rest =>
    if b < 0x80 then
      (utf8Decode rest).map (fun cs => Char.ofNat b :: cs)
    else if 0xC2 ≤ b && b ≤ 0xDF then
      match rest with
      | c1 :: r =>
        if contByte c1 then
          (utf8Decode r).map (fun cs =>
            Char.ofNat ((b - 0xC0) * 0x40 + (c1 - 0x80)) :: cs)
        else none
      | [] => none
    else if 0xE0 ≤ b && b ≤ 0xEF then
      match rest with
      | c1 :: c2 :: r =>
        if (if b = 0xE0 then 0xA0 ≤ c1 && c1 ≤ 0xBF
            else if b = 0xED then 0x80 ≤ c1 && c1 ≤ 0x9F
            else contByte c1) && contByte c2 then
          (utf8Decode r).map (fun cs =>
            Char.ofNat ((b - 0xE0) * 0x1000 + (c1 - 0x80) * 0x40 + (c2 - 0x80)) :: cs)
        else none
      | _ => none
    else if 0xF0 ≤ b && b ≤ 0xF4 then
      match rest with
      | c1 :: c2 :: c3 :: r =>
        if (if b = 0xF0 then 0x90 ≤ c1 && c1 ≤ 0xBF
            else if b = 0xF4 then 0x80 ≤ c1 && c1 ≤ 0x8F
            else contByte c1) && contByte c2 && contByte c3 then
          (utf8Decode r).map (fun cs =>
            Char.ofNat ((b - 0xF0) * 0x40000 + (c1 - 0x80) * 0x1000 +
              (c2 - 0x80) * 0x40 + (c3 - 0x80)) :: cs)
        else none
      | _ => none
    else none

/-! ## The subscription event loop (src/main.rs lines 158-183)

`poem_loop` subscribes to the document and runs
`while let Ok(Some(LiveEvent::InsertRemote { from, entry, .. })) = sub.try_next().await`.
We embed the subscription stream as a list of `Except Unit DocEvent`
(`Except.error` = `try_next` returned Err; the end of the list = the
subscription closed, i.e. `try_next` returned Ok(None)), and the
time-varying blob-store/network state as an oracle
`read : Nat → Nat → Nat → Option bytes` giving the outcome of the k-th
`read_to_bytes` call for the entry of the n-th event with content hash h. -/

/-- A document-log entry descriptor as carried by live events: the author
identifier (a byte sequence), the key and the content hash. -/
structure SEntry where
  author : List Nat
  key : List Char
  hash : Nat
  deriving Repr, DecidableEq

/-- The live events a document subscription can deliver (the variants of
the external library's LiveEvent): local insert, remote insert (with the
peer the entry was received from), content ready, neighbor up/down,
sync finished and pending content ready. -/
inductive DocEvent where
  | insertLocal : SEntry → DocEvent
  | insertRemote : List Nat → SEntry → DocEvent
  | contentReady : Nat → DocEvent
  | neighborUp : List Nat → DocEvent
  | neighborDown : List Nat → DocEvent
  | syncFinished : DocEvent
  | pendingContentReady : DocEvent
  deriving Repr, DecidableEq

/-- Why the `while let` loop of `poem_loop` stopped. -/
inductive LoopExit where
  | closed : LoopExit
  | errored : LoopExit
  | nonRemoteEvent : DocEvent → LoopExit
  | panicked : LoopExit
  deriving Repr, DecidableEq

/-- Observable result of running `poem_loop` on a stream: the lines it
printed, how many stream items it consumed, and why it stopped. -/
structure LoopRun where
  outputs : List (List Char)
  consumed : Nat
  exit : LoopExit
  deriving Repr, DecidableEq

/-- Embedding of `poem_loop` (src/main.rs lines 158-183).  The `while let`
head consumes the next stream item and continues only when it is
`Ok(Some(InsertRemote))`; the body fetches the entry's payload with the
retry loop (`retryFetch`), silently skips the entry when the fetch result
is still Err, and otherwise converts the bytes with
`String::from_utf8(..).unwrap()` — a panic when the bytes are not valid
UTF-8 — and prints `{from.fmt_short()}: {text}`.  `n` is the index of the
next event, used to index the read oracle. -/
def poemLoop (read : Nat → Nat → Nat → Option (List Nat)) (n : Nat) :
    List (Except Unit DocEvent) → LoopRun
  | [] => ⟨[], 0, .closed⟩
  | Except.error _ :: _ => ⟨[], 1, .errored⟩
  | Except.ok ev :: rest =>
    match ev with
    | .insertRemote src entry =>
      match (retryFetch (read n entry.hash)).result with
      | none =>
        let r := poemLoop read (n + 1) rest
        ⟨r.outputs, r.consumed + 1, r.exit⟩
      | some bs =>
        match utf8Decode bs with
        | none => ⟨[], 1, .panicked⟩
        | some txt =>
          let r := poemLoop read (n + 1) rest
          ⟨(fmtShort src ++ [':', ' '] ++ txt) :: r.outputs, r.consumed + 1, r.exit⟩
    | e => ⟨[], 1, .nonRemoteEvent e⟩

/-! ## Ticket codec (spec section 4.4)

The program delegates ticket encoding and decoding to the external
library's DocTicket type: `handle_create` prints the ticket
(src/main.rs line 99) and `handle_join` parses it with
`DocTicket::from_str` (line 137).  The codec itself is therefore modelled
from the spec: a self-describing versioned textual encoding of
`(document_id, bootstrap_peers)` that is printable ASCII with no
whitespace, round-trips exactly, and rejects malformed strings with
InvalidFormat. -/

/-- Modelled from the spec: a bootstrap ticket — a document identifier and
an ordered sequence of bootstrap peer addresses, all byte sequences. -/
structure Ticket where
  documentId : List Nat
  peers : List (List Nat)
  deriving Repr, DecidableEq

/-- A ticket is valid when all of its identifier and address bytes are
actual bytes (below 256). -/
def ticketValid (t : Ticket) : Prop :=
  (∀ b ∈ t.documentId, b < 256) ∧ ∀ p ∈ t.peers, ∀ b ∈ p, b < 256

instance (t : Ticket) : Decidable (ticketValid t) := by
  unfold ticketValid; infer_instance

/-- Join field components with the separator character `-`. -/
def joinDash : List (List Char) → List Char
  | [] => []
  | [p] => p
  | p :: ps => p ++ '-' :: joinDash ps

/-- Split a character sequence at every `-` (inverse of `joinDash` on
dash-free components). -/
def splitDash : List Char → List (List Char)
  | [] => [[]]
  | c :: cs =>
    if c = '-' then [] :: splitDash cs
    else
      match splitDash cs with
      | [] => [[c]]
      | p :: ps => (c :: p) :: ps

/-- Value of a lowercase hexadecimal digit character, if it is one. -/
def hexVal (c : Char) : Option Nat :=
  if 48 ≤ c.toNat && c.toNat ≤ 57 then some (c.toNat - 48)
  else if 97 ≤ c.toNat && c.toNat ≤ 102 then some (c.toNat - 87)
  else none

/-- Parse a hex string as a byte sequence, two digits per byte. -/
def parseHex : List Char → Option (List Nat)
  | [] => some []
  | c1 :: c2 :: cs =>
    match hexVal c1, hexVal c2, parseHex cs with
    | some h, some l, some bs => some ((h * 16 + l) :: bs)
    | _, _, _ => none
  | [_] => none

/-- Parse every component as a hex byte sequence. -/
def parseHexList : List (List Char) → Option (List (List Nat))
  | [] => some []
  | h :: hs =>
    match parseHex h, parseHexList hs with
    | some b, some bs => some (b :: bs)
    | _, _ => none

/-- The self-describing version/type tag of the ticket encoding. -/
def ticketTag : List Char := ['t', 'i', 'c', 'k', 'e', 't', 'v', '1']

/-- The only visible ticket-decoding error (spec section 7). -/
inductive TicketError where
  | invalidFormat : TicketError
  deriving Repr, DecidableEq

/-- Modelled from the spec: TicketCodec.encode — the version tag, the
document id in hex, and each bootstrap peer address in hex, joined with
`-`. -/
def encodeTicket (t : Ticket) : List Char :=
  joinDash (ticketTag :: bytesToHex t.documentId :: t.peers.map bytesToHex)

/-- Modelled from the spec: TicketCodec.decode — splits at `-`, checks the
version tag and hex-decodes the fields; anything else is InvalidFormat. -/
def decodeTicket (s : List Char) : Except TicketError Ticket :=
  match splitDash s with
  | tag :: dochex :: peerhexes =>
    if tag = ticketTag then
      match parseHex dochex, parseHexList peerhexes with
      | some d, some ps => Except.ok ⟨d, ps⟩
      | _, _ => Except.error TicketError.invalidFormat
    else Except.error TicketError.invalidFormat
  | _ => Except.error TicketError.invalidFormat

/-! ## The join flow (src/main.rs lines 127-141) -/

/-- The network/storage activities `handle_join` can perform: importing the
document named by the ticket (which joins the gossip swarm and starts
replication). -/
inductive JoinStep where
  | importDoc : Ticket → JoinStep
  deriving Repr, DecidableEq

/-- How the join flow ends: a panic on the
`.expect("Invalid ticket format")` of the ticket parse, or reaching the
interactive poem-input loop. -/
inductive JoinResult where
  | panicked : JoinResult
  | running : JoinResult
  deriving Repr, DecidableEq

/-- ASCII whitespace, for the `str::trim` of the entered ticket line. -/
def isWsChar (c : Char) : Bool :=
  c = ' ' || c = '\t' || c = '\n' || c = '\r'

/-- `str::trim` of the entered ticket line: strip whitespace from both
ends. -/
def trimChars (s : List Char) : List Char :=
  ((s.dropWhile isWsChar).reverse.dropWhile isWsChar).reverse

/-- Embedding of `handle_join` up to the interactive input loop
(src/main.rs lines 127-141): trim the entered ticket string, parse it (the
external DocTicket FromStr, modelled by `decodeTicket`), panic via
`.expect("Invalid ticket format")` when parsing fails, and only
otherwise imports the document.  Returns the network/storage steps
performed and the outcome. -/
def handleJoin (input : List Char) : List JoinStep × JoinResult :=
  match decodeTicket (trimChars input) with
  | Except.error _ => ([], JoinResult.panicked)
  | Except.ok t => ([JoinStep.importDoc t], JoinResult.running)

/-! ## Document-log merge (spec section 4.3)

The replicated key-value log and its merge rule live in the external
iroh-docs crate; they are modelled from the spec: last-write-wins per
`(author, key)` with ties broken by the larger content hash. -/

/-- Modelled from the spec: a log entry
`{author, key, hash, timestamp, tombstone}`. -/
structure LogEntry where
  author : List Nat
  key : List Char
  hash : Nat
  timestamp : Nat
  tombstone : Bool
  deriving Repr, DecidableEq

/-- The last-write-wins winner among two `(timestamp, hash)` versions of
the same `(author, key)`: the second candidate wins exactly when it is at
least as large in the lexicographic `(timestamp, hash)` order — the higher
timestamp wins, a timestamp tie is broken by the larger content hash. -/
def lwwMax (a b : Nat × Nat) : Nat × Nat :=
  if a.1 < b.1 ∨ (a.1 = b.1 ∧ a.2 ≤ b.2) then b else a

/-- Replica state of a document log: the `(timestamp, hash)` of the live
entry for each `(author, key)` pair, if any. -/
def ReplicaState : Type :=
  List Nat × List Char → Option (Nat × Nat)

/-- The empty replica: no entry is live. -/
def emptyReplica : ReplicaState := fun _ => none

/-- Modelled from the spec: DocumentLog.merge — apply a remote entry with
last-write-wins per `(author, key)`, ties broken by the larger content
hash; all other pairs are untouched. -/
def mergeEntry (s : ReplicaState) (e : LogEntry) : ReplicaState :=
  fun p =>
    if p = (e.author, e.key) then
      match s p with
      | none => some (e.timestamp, e.hash)
      | some old => some (lwwMax old (e.timestamp, e.hash))
    else s p

/-- Merge a list of remote entries in arrival order. -/
def mergeAll (s : ReplicaState) (l : List LogEntry) : ReplicaState :=
  l.foldl mergeEntry s

/-- The live entries of a replica over a finite domain of `(author, key)`
pairs, in domain order — the list() output restricted to that domain. -/
def listLive (dom : List (List Nat × List Char)) (s : ReplicaState) :
    List ((List Nat × List Char) × (Nat × Nat)) :=
  dom.filterMap (fun p => (s p).map (fun v => (p, v)))

/-! ## Set timestamps (spec section 4.3) and poem-line keys
(src/main.rs lines 117-122 and 148-153) -/

/-- Modelled from the spec: the timestamp DocumentLog.set assigns to a new
entry — `max(now, previous_timestamp_for(author, key) + 1)`. -/
def setTimestamp (now prev : Nat) : Nat :=
  max now (prev + 1)

/-- The stored timestamps of successive writes to one `(author, key)`
pair: each write reads the wall clock (the next element of the list) and
the previously stored timestamp. -/
def writeTimestamps (prev : Nat) : List Nat → List Nat
  | [] => []
  | now :: rest =>
    setTimestamp now prev :: writeTimestamps (setTimestamp now prev) rest

/-- Decimal digit character for a value below 10. -/
def decDigitChar (n : Nat) : Char := Char.ofNat (48 + n)

/-- Decimal rendering, most-significant digit first, accumulator form
(the rendering `to_string` performs for a nonnegative integer). -/
def natToDecimalAux (n : Nat) (acc : List Char) : List Char :=
  if n < 10 then decDigitChar n :: acc
  else natToDecimalAux (n / 10) (decDigitChar (n % 10) :: acc)
termination_by n
decreasing_by exact Nat.div_lt_self (by omega) (by omega)

/-- Decimal rendering of a natural number. -/
def natToDecimal (n : Nat) : List Char :=
  natToDecimalAux n []

/-- The key under which `handle_create` and `handle_join` store an
interactively submitted poem line (src/main.rs lines 117-122 and 148-153):
`Utc::now().timestamp_micros().to_string()` — the current wall-clock time
in microseconds rendered as a decimal string. -/
def poemLineKey (micros : Nat) : List Char :=
  natToDecimal micros

/-- Numeric value of a decimal digit character. -/
def decDigitVal (c : Char) : Nat := c.toNat - 48

/-- Numeric value of a decimal digit string. -/
def decimalVal (cs : List Char) : Nat :=
  cs.foldl (fun a c => a * 10 + decDigitVal c) 0

/-- Claim C1: for every remote entry whose payload read fails, the loop
retries the blob fetch a bounded number of times — at most 3 retries beyond
the initial read, each retry preceded by exactly one one-second backoff
sleep — and when all reads up to the bound fail it gives up with no result
after exactly 3 sleeps (about 3 seconds of backoff), rather than retrying
indefinitely. -/
theorem c1_retry_bounded (read : Nat → Option (List Nat)) :
    (retryFetch read).sleeps ≤ 3 ∧
    (retryFetch read).reads = (retryFetch read).sleeps + 1 ∧
    (retryFetch read).reads ≤ 4 ∧
    ((∀ i, i ≤ 3 → read i = none) →
      (retryFetch read).result = none ∧ (retryFetch read).sleeps = 3) := by
  rcases h0 : read 0 with _ | v0
  · rcases h1 : read 1 with _ | v1
    · rcases h2 : read 2 with _ | v2
      · rcases h3 : read 3 with _ | v3
        · simp [retryFetch, retryAux, h0, h1, h2, h3]
        · simp only [retryFetch, retryAux, h0, h1, h2, h3]
          refine ⟨by omega, by trivial, by omega, fun hall => ?_⟩
          have := hall 3 (by omega)
          simp [h3] at this
      · simp only [retryFetch, retryAux, h0, h1, h2]
        refine ⟨by omega, by trivial, by omega, fun hall => ?_⟩
        have := hall 2 (by omega)
        simp [h2] at this
    · simp only [retryFetch, retryAux, h0, h1]
      refine ⟨by omega, by trivial, by omega, fun hall => ?_⟩
      have := hall 1 (by omega)
      simp [h1] at this
  · simp only [retryFetch, retryAux, h0]
    refine ⟨by omega, by trivial, by omega, fun hall => ?_⟩
    have := hall 0 (by omega)
    simp [h0] at this

/-- Witness for C1 at a concrete oracle on which every read fails: the
bounds hold and the loop gives up after exactly 3 sleeps. -/
theorem c1_retry_bounded_holds :
    (retryFetch (fun _ => (none : Option (List Nat)))).result = none ∧
    (retryFetch (fun _ => (none : Option (List Nat)))).sleeps = 3 := by
  have h := c1_retry_bounded (fun _ => none)
  exact h.2.2.2 (fun i _ => rfl)

/-- Claim C2 (code bug): the loop is meant to keep consuming events of any
kind until the subscription is closed, but the `while let
Ok(Some(LiveEvent::InsertRemote ..))` head terminates the loop on the
first event that is not a remote insert.  On a stream whose first event is
a membership event followed by two remote inserts, the loop stops after
consuming one event, printing nothing, with the subscription still open. -/
theorem c2_loop_stops_on_first_non_remote_event :
    poemLoop (fun _ _ _ => some [104, 105]) 0
      [Except.ok (DocEvent.neighborUp [9, 9, 9, 9, 9]),
       Except.ok (DocEvent.insertRemote [1, 1, 1, 1, 1] ⟨[2, 2, 2, 2, 2], ['k'], 7⟩),
       Except.ok (DocEvent.insertRemote [1, 1, 1, 1, 1] ⟨[2, 2, 2, 2, 2], ['m'], 8⟩)]
      = ⟨[], 1, LoopExit.nonRemoteEvent (DocEvent.neighborUp [9, 9, 9, 9, 9])⟩ := by
  rfl

/-- Claim C3 counterexample: for a resolved remote entry received from peer
`[1,1,1,1,1]` but authored by `[2,2,2,2,2]`, the printed line uses the
short id of the sending peer (`from.fmt_short()`), not the short form of
the entry's author identifier, so the output differs from
`{author-short-id}: {payload text}`. -/
theorem c3_counterexample :
    (poemLoop (fun _ _ _ => some [104, 105]) 0
        [Except.ok (DocEvent.insertRemote [1, 1, 1, 1, 1] ⟨[2, 2, 2, 2, 2], ['k'], 7⟩)]).outputs
      = [fmtShort [1, 1, 1, 1, 1] ++ [':', ' '] ++ ['h', 'i']] ∧
    (poemLoop (fun _ _ _ => some [104, 105]) 0
        [Except.ok (DocEvent.insertRemote [1, 1, 1, 1, 1] ⟨[2, 2, 2, 2, 2], ['k'], 7⟩)]).outputs
      ≠ [fmtShort [2, 2, 2, 2, 2] ++ [':', ' '] ++ ['h', 'i']] := by
  decide

/-- Claim C3 (amended): for every resolved incoming remote entry, the CLI
prints `{sender-short-id}: {payload text}`, where the short id shown is the
short form of the peer the entry was received from (the event's `from`
field), not of the entry's author. -/
theorem c3_prints_sender_short_id (read : Nat → Nat → Nat → Option (List Nat))
    (n : Nat) (src : List Nat) (entry : SEntry) (rest : List (Except Unit DocEvent))
    (bs : List Nat) (txt : List Char)
    (hfetch : (retryFetch (read n entry.hash)).result = some bs)
    (hok : utf8Decode bs = some txt) :
    (poemLoop read n (Except.ok (DocEvent.insertRemote src entry) :: rest)).outputs
      = (fmtShort src ++ [':', ' '] ++ txt) :: (poemLoop read (n + 1) rest).outputs := by
  simp [poemLoop, hfetch, hok]

/-- Witness for C3 (amended) at a concrete event whose payload decodes to
"hi": the line printed is the sender's short id, a colon-space, then the
text. -/
theorem c3_prints_sender_short_id_holds :
    (poemLoop (fun _ _ _ => some [104, 105]) 0
        [Except.ok (DocEvent.insertRemote [1, 1, 1, 1, 1] ⟨[2, 2, 2, 2, 2], ['k'], 7⟩)]).outputs
      = (fmtShort [1, 1, 1, 1, 1] ++ [':', ' '] ++ ['h', 'i'])
          :: (poemLoop (fun _ _ _ => some [104, 105]) 1 []).outputs := by
  exact c3_prints_sender_short_id (fun _ _ _ => some [104, 105]) 0
    [1, 1, 1, 1, 1] ⟨[2, 2, 2, 2, 2], ['k'], 7⟩ [] [104, 105] ['h', 'i'] rfl (by decide)

/-- Claim C4 counterexample: when the fetch retry bound is exhausted for a
remote entry, the session emits nothing at all — its output trace is empty,
so in particular no `FetchFailed(entry)` diagnostic event is emitted — and
the loop simply runs on to the end of the stream. -/
theorem c4_counterexample :
    poemLoop (fun _ _ _ => none) 0
      [Except.ok (DocEvent.insertRemote [1, 1, 1, 1, 1] ⟨[2, 2, 2, 2, 2], ['k'], 7⟩)]
      = ⟨[], 1, LoopExit.closed⟩ := by
  rfl

/-- Claim C4 (amended): when the fetch retry bound is exhausted for a
remote entry, the session silently drops that entry — it emits no
diagnostic and no application notification — does not crash, and continues
processing subsequent events of the stream unchanged. -/
theorem c4_exhausted_fetch_dropped_silently (read : Nat → Nat → Nat → Option (List Nat))
    (n : Nat) (src : List Nat) (entry : SEntry) (rest : List (Except Unit DocEvent))
    (hfail : (retryFetch (read n entry.hash)).result = none) :
    poemLoop read n (Except.ok (DocEvent.insertRemote src entry) :: rest)
      = ⟨(poemLoop read (n + 1) rest).outputs,
         (poemLoop read (n + 1) rest).consumed + 1,
         (poemLoop read (n + 1) rest).exit⟩ := by
  simp [poemLoop, hfail]

/-- Witness for C4 (amended): a failing first entry followed by a
successful one — the failed entry is dropped silently and the next entry is
still processed and printed. -/
theorem c4_exhausted_fetch_dropped_silently_holds :
    poemLoop (fun n _ _ => if n = 0 then none else some [104, 105]) 0
      [Except.ok (DocEvent.insertRemote [1, 1, 1, 1, 1] ⟨[2, 2, 2, 2, 2], ['k'], 7⟩),
       Except.ok (DocEvent.insertRemote [3, 3, 3, 3, 3] ⟨[4, 4, 4, 4, 4], ['m'], 8⟩)]
      = ⟨(poemLoop (fun n _ _ => if n = 0 then none else some [104, 105]) 1
            [Except.ok (DocEvent.insertRemote [3, 3, 3, 3, 3] ⟨[4, 4, 4, 4, 4], ['m'], 8⟩)]).outputs,
         (poemLoop (fun n _ _ => if n = 0 then none else some [104, 105]) 1
            [Except.ok (DocEvent.insertRemote [3, 3, 3, 3, 3] ⟨[4, 4, 4, 4, 4], ['m'], 8⟩)]).consumed + 1,
         (poemLoop (fun n _ _ => if n = 0 then none else some [104, 105]) 1
            [Except.ok (DocEvent.insertRemote [3, 3, 3, 3, 3] ⟨[4, 4, 4, 4, 4], ['m'], 8⟩)]).exit⟩ := by
  exact c4_exhausted_fetch_dropped_silently (fun n _ _ => if n = 0 then none else some [104, 105])
    0 [1, 1, 1, 1, 1] ⟨[2, 2, 2, 2, 2], ['k'], 7⟩
    [Except.ok (DocEvent.insertRemote [3, 3, 3, 3, 3] ⟨[4, 4, 4, 4, 4], ['m'], 8⟩)] rfl

/-- Claim C9: for every remote entry whose payload is successfully fetched
but is not valid UTF-8, the loop panics on the `unwrap` of
`String::from_utf8`, terminating the session at that event instead of
handling the entry gracefully — no line is printed and no further events
are processed. -/
theorem c9_invalid_utf8_panics (read : Nat → Nat → Nat → Option (List Nat))
    (n : Nat) (src : List Nat) (entry : SEntry) (rest : List (Except Unit DocEvent))
    (bs : List Nat)
    (hfetch : (retryFetch (read n entry.hash)).result = some bs)
    (hbad : utf8Decode bs = none) :
    poemLoop read n (Except.ok (DocEvent.insertRemote src entry) :: rest)
      = ⟨[], 1, LoopExit.panicked⟩ := by
  simp [poemLoop, hfetch, hbad]

/-- Witness for C9 at a concrete payload `[0xFF]`, which is not valid
UTF-8: the session panics even though two more events were pending. -/
theorem c9_invalid_utf8_panics_holds :
    poemLoop (fun _ _ _ => some [255]) 0
      [Except.ok (DocEvent.insertRemote [1, 1, 1, 1, 1] ⟨[2, 2, 2, 2, 2], ['k'], 7⟩),
       Except.ok (DocEvent.insertRemote [3, 3, 3, 3, 3] ⟨[4, 4, 4, 4, 4], ['m'], 8⟩)]
      = ⟨[], 1, LoopExit.panicked⟩ := by
  exact c9_invalid_utf8_panics (fun _ _ _ => some [255]) 0
    [1, 1, 1, 1, 1] ⟨[2, 2, 2, 2, 2], ['k'], 7⟩
    [Except.ok (DocEvent.insertRemote [3, 3, 3, 3, 3] ⟨[4, 4, 4, 4, 4], ['m'], 8⟩)]
    [255] rfl (by decide)

/-- Hex digit characters round-trip through `hexVal`. -/
theorem hexVal_hexDigitChar : ∀ d < 16, hexVal (hexDigitChar d) = some d := by
  decide

/-- A character that `hexVal` accepts is not the separator and is printable
non-whitespace ASCII. -/
theorem hexVal_char_props (c : Char) (h : ∃ v, hexVal c = some v) :
    c ≠ '-' ∧ 33 ≤ c.toNat ∧ c.toNat ≤ 126 := by
  rcases h with ⟨v, hv⟩
  refine ⟨?_, ?_⟩
  · intro he
    subst he
    simp [hexVal] at hv
  · unfold hexVal at hv
    split_ifs at hv with h1 h2
    · simp only [Bool.and_eq_true, decide_eq_true_eq] at h1
      omega
    · simp only [Bool.and_eq_true, decide_eq_true_eq] at h2
      omega

/-- Every character of the hex rendering of a byte sequence is a hex
digit character. -/
theorem mem_bytesToHex (bs : List Nat) (hb : ∀ b ∈ bs, b < 256) :
    ∀ c ∈ bytesToHex bs, ∃ v, hexVal c = some v := by
  induction bs with
  | nil => intro c hc; simp [bytesToHex] at hc
  | cons b bs ih =>
    intro c hc
    have hb0 : b < 256 := hb b (by simp)
    simp only [bytesToHex, List.mem_cons] at hc
    rcases hc with hc | hc | hc
    · exact ⟨b / 16, by rw [hc]; exact hexVal_hexDigitChar (b / 16) (by omega)⟩
    · exact ⟨b % 16, by rw [hc]; exact hexVal_hexDigitChar (b % 16) (by omega)⟩
    · exact ih (fun x hx => hb x (by simp [hx])) c hc

/-- Parsing inverts the hex rendering of a byte sequence. -/
theorem parseHex_bytesToHex (bs : List Nat) (hb : ∀ b ∈ bs, b < 256) :
    parseHex (bytesToHex bs) = some bs := by
  induction bs with
  | nil => rfl
  | cons b bs ih =>
    have hb0 : b < 256 := hb b (by simp)
    simp only [bytesToHex, parseHex]
    rw [hexVal_hexDigitChar (b / 16) (by omega), hexVal_hexDigitChar (b % 16) (by omega),
      ih (fun x hx => hb x (by simp [hx]))]
    have : b / 16 * 16 + b % 16 = b := by omega
    simp [this]

/-- Parsing inverts the hex rendering of every component. -/
theorem parseHexList_map (ps : List (List Nat)) (hb : ∀ p ∈ ps, ∀ b ∈ p, b < 256) :
    parseHexList (ps.map bytesToHex) = some ps := by
  induction ps with
  | nil => rfl
  | cons p ps ih =>
    simp only [List.map_cons, parseHexList]
    rw [parseHex_bytesToHex p (hb p (by simp)), ih (fun x hx => hb x (by simp [hx]))]

/-- Splitting a dash-free component returns just that component. -/
theorem splitDash_no_dash (p : List Char) (h : '-' ∉ p) : splitDash p = [p] := by
  induction p with
  | nil => rfl
  | cons c cs ih =>
    have hc : ¬c = '-' := fun he => h (by simp [he])
    have hcs : '-' ∉ cs := fun hm => h (by simp [hm])
    simp [splitDash, hc, ih hcs]

/-- Splitting after a dash-free component peels it off. -/
theorem splitDash_append (p rest : List Char) (h : '-' ∉ p) :
    splitDash (p ++ '-' :: rest) = p :: splitDash rest := by
  induction p with
  | nil => simp [splitDash]
  | cons c cs ih =>
    have hc : ¬c = '-' := fun he => h (by simp [he])
    have hcs : '-' ∉ cs := fun hm => h (by simp [hm])
    simp [splitDash, hc, ih hcs]

/-- Splitting inverts joining for a nonempty list of dash-free
components. -/
theorem splitDash_joinDash (parts : List (List Char)) (hne : parts ≠ [])
    (h : ∀ p ∈ parts, '-' ∉ p) : splitDash (joinDash parts) = parts := by
  induction parts with
  | nil => exact absurd rfl hne
  | cons p ps ih =>
    match ps with
    | [] => exact splitDash_no_dash p (h p (by simp))
    | q :: qs =>
      have hjoin : joinDash (p :: q :: qs) = p ++ '-' :: joinDash (q :: qs) := rfl
      rw [hjoin, splitDash_append p _ (h p (by simp)),
        ih (by simp) (fun x hx => h x (by simp [hx]))]

/-- Every character of a joined sequence is a separator or belongs to one
of the components. -/
theorem mem_joinDash (parts : List (List Char)) (c : Char)
    (hc : c ∈ joinDash parts) : c = '-' ∨ ∃ p ∈ parts, c ∈ p := by
  induction parts with
  | nil => simp [joinDash] at hc
  | cons p ps ih =>
    match ps with
    | [] => exact Or.inr ⟨p, by simp, hc⟩
    | q :: qs =>
      have hjoin : joinDash (p :: q :: qs) = p ++ '-' :: joinDash (q :: qs) := rfl
      rw [hjoin] at hc
      rcases List.mem_append.mp hc with hp | hq
      · exact Or.inr ⟨p, by simp, hp⟩
      · rcases List.mem_cons.mp hq with he | hq
        · exact Or.inl he
        · rcases ih hq with he | ⟨x, hx, hcx⟩
          · exact Or.inl he
          · exact Or.inr ⟨x, by simp [List.mem_cons.mp hx], hcx⟩

/-- The version tag contains no separator. -/
theorem ticketTag_no_dash : '-' ∉ ticketTag := by decide

/-- The version tag is printable non-whitespace ASCII. -/
theorem ticketTag_chars : ∀ c ∈ ticketTag, 33 ≤ c.toNat ∧ c.toNat ≤ 126 := by decide

/-- Claim C6: the ticket encoding round-trips — for every valid pair of
document id and peer addresses, decoding the encoding returns exactly that
pair — and the encoded string is printable ASCII (codes 33 to 126) with no
embedded whitespace. -/
theorem c6_ticket_roundtrip (t : Ticket) (hv : ticketValid t) :
    decodeTicket (encodeTicket t) = Except.ok t ∧
    ∀ c ∈ encodeTicket t, 33 ≤ c.toNat ∧ c.toNat ≤ 126 := by
  rcases hv with ⟨hdoc, hpeers⟩
  have hdocdash : '-' ∉ bytesToHex t.documentId := fun hm =>
    (hexVal_char_props '-' (mem_bytesToHex t.documentId hdoc '-' hm)).1 rfl
  have hparts : ∀ p ∈ ticketTag :: bytesToHex t.documentId :: t.peers.map bytesToHex,
      '-' ∉ p := by
    intro p hp
    rcases List.mem_cons.mp hp with he | hp
    · rw [he]; exact ticketTag_no_dash
    · rcases List.mem_cons.mp hp with he | hp
      · rw [he]; exact hdocdash
      · rcases List.mem_map.mp hp with ⟨q, hq, he⟩
        rw [← he]
        exact fun hm =>
          (hexVal_char_props '-' (mem_bytesToHex q (hpeers q hq) '-' hm)).1 rfl
  constructor
  · unfold decodeTicket encodeTicket
    rw [splitDash_joinDash _ (by simp) hparts]
    simp only [if_pos rfl]
    rw [parseHex_bytesToHex t.documentId hdoc, parseHexList_map t.peers hpeers]
    simp
  · intro c hc
    rcases mem_joinDash _ c hc with he | ⟨p, hp, hcp⟩
    · rw [he]; decide
    · rcases List.mem_cons.mp hp with he | hp
      · exact ticketTag_chars c (by rw [← he]; exact hcp)
      · rcases List.mem_cons.mp hp with he | hp
        · exact (hexVal_char_props c
            (mem_bytesToHex t.documentId hdoc c (by rw [he] at hcp; exact hcp))).2
        · rcases List.mem_map.mp hp with ⟨q, hq, he⟩
          exact (hexVal_char_props c
            (mem_bytesToHex q (hpeers q hq) c (by rw [← he] at hcp; exact hcp))).2

/-- Witness for C6 at a concrete ticket with a two-byte document id, one
two-byte peer address and one empty peer address. -/
theorem c6_ticket_roundtrip_holds :
    decodeTicket (encodeTicket ⟨[171, 205], [[1, 2], []]⟩)
      = Except.ok ⟨[171, 205], [[1, 2], []]⟩ :=
  (c6_ticket_roundtrip ⟨[171, 205], [[1, 2], []]⟩ (by decide)).1

/-- Claim C5: every ticket string that is malformed (its trimmed form does
not decode) is rejected with InvalidFormat — the join flow stops at the
ticket parse — before any network or storage activity is attempted: it
performs no import step, so no partial join occurs. -/
theorem c5_malformed_ticket_fail_fast (input : List Char)
    (hbad : decodeTicket (trimChars input) = Except.error TicketError.invalidFormat) :
    handleJoin input = ([], JoinResult.panicked) := by
  simp [handleJoin, hbad]

/-- Witness for C5 at the concrete malformed ticket string "garbage". -/
theorem c5_malformed_ticket_fail_fast_holds :
    handleJoin ['g', 'a', 'r', 'b', 'a', 'g', 'e'] = ([], JoinResult.panicked) :=
  c5_malformed_ticket_fail_fast ['g', 'a', 'r', 'b', 'a', 'g', 'e'] (by rfl)

/-- The last-write-wins winner does not depend on the order of the two
candidates. -/
theorem lwwMax_comm (a b : Nat × Nat) : lwwMax a b = lwwMax b a := by
  rcases a with ⟨a1, a2⟩
  rcases b with ⟨b1, b2⟩
  by_cases hab : a1 < b1 ∨ (a1 = b1 ∧ a2 ≤ b2) <;>
    by_cases hba : b1 < a1 ∨ (b1 = a1 ∧ b2 ≤ a2) <;>
    simp [lwwMax, hab, hba] <;> omega

/-- Folding two candidates into an accumulated winner commutes. -/
theorem lwwMax_left_swap (w u v : Nat × Nat) :
    lwwMax (lwwMax w u) v = lwwMax (lwwMax w v) u := by
  rcases w with ⟨w1, w2⟩
  rcases u with ⟨u1, u2⟩
  rcases v with ⟨v1, v2⟩
  by_cases hwu : w1 < u1 ∨ (w1 = u1 ∧ w2 ≤ u2) <;>
    by_cases hwv : w1 < v1 ∨ (w1 = v1 ∧ w2 ≤ v2) <;>
    by_cases huv : u1 < v1 ∨ (u1 = v1 ∧ u2 ≤ v2) <;>
    by_cases hvu : v1 < u1 ∨ (v1 = u1 ∧ v2 ≤ u2) <;>
    simp [lwwMax, hwu, hwv, huv, hvu] <;> omega

/-- Merging two entries into a replica state commutes. -/
theorem mergeEntry_right_comm (s : ReplicaState) (e1 e2 : LogEntry) :
    mergeEntry (mergeEntry s e1) e2 = mergeEntry (mergeEntry s e2) e1 := by
  funext p
  by_cases h1 : p = (e1.author, e1.key) <;> by_cases h2 : p = (e2.author, e2.key)
  · rcases hsp : s p with _ | w
    · simp only [mergeEntry, if_pos h1, if_pos h2, hsp]
      rw [lwwMax_comm]
    · simp only [mergeEntry, if_pos h1, if_pos h2, hsp]
      rw [lwwMax_left_swap]
  · simp only [mergeEntry, if_pos h1, if_neg h2]
  · simp only [mergeEntry, if_pos h2, if_neg h1]
  · simp only [mergeEntry, if_neg h1, if_neg h2]

/-- Claim C7: merge is order-independent — two replicas that merge the same
finite collection of log entries in any two orders reach the same replica
state, and hence identical live-entry list() output over every domain of
(author, key) pairs; per (author, key) the merge keeps the last write,
with timestamp ties broken by the larger content hash (`lwwMax`). -/
theorem c7_merge_order_independent (s : ReplicaState) (l1 l2 : List LogEntry)
    (hperm : l1.Perm l2) :
    mergeAll s l1 = mergeAll s l2 ∧
    ∀ dom, listLive dom (mergeAll s l1) = listLive dom (mergeAll s l2) := by
  have hst : mergeAll s l1 = mergeAll s l2 :=
    hperm.foldl_eq' (fun x _ y _ z => mergeEntry_right_comm z x y) s
  exact ⟨hst, fun dom => by rw [hst]⟩

/-- Witness for C7: two writes to the same key by different authors merged
in both orders produce the same replica state. -/
theorem c7_merge_order_independent_holds :
    mergeAll emptyReplica
        [⟨[1], ['x'], 5, 10, false⟩, ⟨[2], ['x'], 6, 11, false⟩]
      = mergeAll emptyReplica
        [⟨[2], ['x'], 6, 11, false⟩, ⟨[1], ['x'], 5, 10, false⟩] :=
  (c7_merge_order_independent emptyReplica
    [⟨[1], ['x'], 5, 10, false⟩, ⟨[2], ['x'], 6, 11, false⟩]
    [⟨[2], ['x'], 6, 11, false⟩, ⟨[1], ['x'], 5, 10, false⟩] (by decide)).1

/-- Claim C8: for every author and key, set assigns the new entry the
timestamp `max(now, previous + 1)` (the definition of `setTimestamp`), so
across any sequence of successive writes — whatever the wall clock reads,
including going backwards — the stored timestamps are strictly
increasing. -/
theorem c8_set_timestamp_monotonic (prev : Nat) (nows : List Nat) :
    List.Chain (· < ·) prev (writeTimestamps prev nows) := by
  induction nows generalizing prev with
  | nil => exact List.Chain.nil
  | cons now rest ih =>
    exact List.Chain.cons (by unfold setTimestamp; omega) (ih (setTimestamp now prev))

/-- Decimal digit characters round-trip through `decDigitVal`. -/
theorem decDigitVal_decDigitChar : ∀ d < 10, decDigitVal (decDigitChar d) = d := by
  decide

/-- The accumulator of the decimal rendering is simply appended. -/
theorem natToDecimalAux_shift (n : Nat) :
    ∀ acc, natToDecimalAux n acc = natToDecimalAux n [] ++ acc := by
  induction n using Nat.strong_induction_on with
  | _ n ih =>
    intro acc
    by_cases h : n < 10
    · rw [natToDecimalAux.eq_def]
      conv_rhs => rw [natToDecimalAux.eq_def]
      simp [h]
    · have hlt : n / 10 < n := Nat.div_lt_self (by omega) (by omega)
      rw [natToDecimalAux.eq_def]
      conv_rhs => rw [natToDecimalAux.eq_def]
      simp only [if_neg h]
      rw [ih (n / 10) hlt (decDigitChar (n % 10) :: acc),
        ih (n / 10) hlt [decDigitChar (n % 10)]]
      simp

/-- Appending one digit multiplies the value by ten and adds the digit. -/
theorem decimalVal_append_digit (xs : List Char) (c : Char) :
    decimalVal (xs ++ [c]) = decimalVal xs * 10 + decDigitVal c := by
  simp [decimalVal, List.foldl_append]

/-- The decimal rendering of a natural number evaluates back to it. -/
theorem decimalVal_natToDecimal (n : Nat) : decimalVal (natToDecimal n) = n := by
  induction n using Nat.strong_induction_on with
  | _ n ih =>
    by_cases h : n < 10
    · unfold natToDecimal
      rw [natToDecimalAux.eq_def]
      simp only [if_pos h]
      simp [decimalVal, decDigitVal_decDigitChar n h]
    · have hlt : n / 10 < n := Nat.div_lt_self (by omega) (by omega)
      unfold natToDecimal
      rw [natToDecimalAux.eq_def]
      simp only [if_neg h]
      rw [natToDecimalAux_shift (n / 10) [decDigitChar (n % 10)]]
      have hnd : decimalVal (natToDecimalAux (n / 10) []) = n / 10 := ih (n / 10) hlt
      rw [decimalVal_append_digit, hnd, decDigitVal_decDigitChar (n % 10) (by omega)]
      omega

/-- Decimal rendering is injective. -/
theorem natToDecimal_injective (m n : Nat) (h : natToDecimal m = natToDecimal n) :
    m = n := by
  have hv := congrArg decimalVal h
  rwa [decimalVal_natToDecimal, decimalVal_natToDecimal] at hv

/-- Claim C10: every interactively submitted poem line is stored under the
key `poemLineKey micros` — the wall-clock microsecond instant rendered as a
decimal string — so two lines submitted at distinct microsecond instants
have distinct keys, occupy distinct (author, key) pairs even for the same
author, and after merging both, both remain live: neither supersedes the
other under last-write-wins. -/
theorem c10_distinct_instants_never_supersede (a : List Nat)
    (t1 t2 h1 h2 ts1 ts2 : Nat) (hne : t1 ≠ t2) :
    poemLineKey t1 ≠ poemLineKey t2 ∧
    mergeAll emptyReplica
        [⟨a, poemLineKey t1, h1, ts1, false⟩, ⟨a, poemLineKey t2, h2, ts2, false⟩]
        (a, poemLineKey t1) = some (ts1, h1) ∧
    mergeAll emptyReplica
        [⟨a, poemLineKey t1, h1, ts1, false⟩, ⟨a, poemLineKey t2, h2, ts2, false⟩]
        (a, poemLineKey t2) = some (ts2, h2) := by
  have hk : poemLineKey t1 ≠ poemLineKey t2 := fun he =>
    hne (natToDecimal_injective t1 t2 he)
  refine ⟨hk, ?_, ?_⟩
  · simp [mergeAll, mergeEntry, emptyReplica, Prod.ext_iff, hk]
  · simp [mergeAll, mergeEntry, emptyReplica, Prod.ext_iff, Ne.symm hk]

/-- Witness for C10 at the concrete instants 5 and 7 microseconds for
author `[9]`: the keys differ and both entries stay live. -/
theorem c10_distinct_instants_never_supersede_holds :
    poemLineKey 5 ≠ poemLineKey 7 ∧
    mergeAll emptyReplica
        [⟨[9], poemLineKey 5, 1, 100, false⟩, ⟨[9], poemLineKey 7, 2, 100, false⟩]
        ([9], poemLineKey 5) = some (100, 1) ∧
    mergeAll emptyReplica
        [⟨[9], poemLineKey 5, 1, 100, false⟩, ⟨[9], poemLineKey 7, 2, 100, false⟩]
        ([9], poemLineKey 7) = some (100, 2) :=
  c10_distinct_instants_never_supersede [9] 5 7 1 2 100 100 (by decide)
